import Mathlib

/-!
Shallow embedding of the process-execution and script-generation core of the
aseprite_mcp repository (src/aseprite.rs), together with theorems settling the
specification claims about it.  Rust strings are modelled as lists of
characters; the filesystem, the environment and the behaviour of the spawned
child process are passed explicitly as data.
-/

namespace AsepriteMcp

/-! Rust primitives used by the source, modelled on lists of characters. -/

/-- Rust `str::replace` with a single-character pattern: every occurrence of
`pat` is replaced by the character list `rep`. -/
def replaceChar (pat : Char) (rep : List Char) : List Char → List Char
  | [] => []
  | c :: rest => (if c = pat then rep else [c]) ++ replaceChar pat rep rest

/-- `true` on code points with the Unicode White_Space property, as tested by
Rust `char::is_whitespace` (the set used by `str::trim`). -/
def rustIsWhitespace (c : Char) : Bool :=
  c.toNat == 0x09 || c.toNat == 0x0A || c.toNat == 0x0B || c.toNat == 0x0C ||
  c.toNat == 0x0D || c.toNat == 0x20 || c.toNat == 0x85 || c.toNat == 0xA0 ||
  c.toNat == 0x1680 ||
  (decide (0x2000 ≤ c.toNat) && decide (c.toNat ≤ 0x200A)) ||
  c.toNat == 0x2028 || c.toNat == 0x2029 || c.toNat == 0x202F ||
  c.toNat == 0x205F || c.toNat == 0x3000

/-- Rust `str::trim`: strip leading and trailing whitespace. -/
def trim (s : List Char) : List Char :=
  ((s.dropWhile rustIsWhitespace).reverse.dropWhile rustIsWhitespace).reverse

/-! The script-text builder (`lua_string`, src/aseprite.rs lines 296-304). -/

/-- The escaped body built inside `lua_string`: the five sequential
`str::replace` passes of the source, in source order (backslash, double quote,
newline, carriage return, NUL). -/
def luaEscapeBody (s : List Char) : List Char :=
  replaceChar '\x00' ['\\', '0']
    (replaceChar '\r' ['\\', 'r']
      (replaceChar '\n' ['\\', 'n']
        (replaceChar '\"' ['\\', '\"']
          (replaceChar '\\' ['\\', '\\'] s))))

/-- `lua_string` from src/aseprite.rs: escape `s` and wrap it in double
quotes. -/
def lua_string (s : List Char) : List Char :=
  '\"' :: (luaEscapeBody s ++ ['\"'])

/-- The per-character effect of the five replace passes (the passes never
rewrite characters introduced by an earlier pass, so their composition acts
character by character). -/
def escChar (c : Char) : List Char :=
  if c = '\\' then ['\\', '\\']
  else if c = '\"' then ['\\', '\"']
  else if c = '\n' then ['\\', 'n']
  else if c = '\r' then ['\\', 'r']
  else if c = '\x00' then ['\\', '0']
  else [c]

/-! A model of Lua 5.x short-string-literal decoding (the claims compare the
escaper against the scripting language's own grammar, so this side is modelled
from the Lua reference manual).  A `\` followed by decimal digits is a decimal
escape consuming up to three digits and denoting a byte; the single-character
escapes `\a \b \f \n \r \t \v \\ \" \x27` denote the usual characters; an
unescaped double quote, newline or carriage return cannot occur inside the
literal body.  (The hex, `\z` and `\u` escapes are never produced by the
escaper and are omitted.) -/

/-- Decimal digit test. -/
def isDecDigit (c : Char) : Bool :=
  decide ('0' ≤ c) && decide (c ≤ '9')

/-- Value of a decimal digit character. -/
def digVal (c : Char) : Nat := c.toNat - 48

/-- The single-character escapes of Lua (`\a \b \f \n \r \t \v \\ \" \x27`). -/
def luaEscCharMap (e : Char) : Option Char :=
  if e = 'a' then some '\x07'
  else if e = 'b' then some '\x08'
  else if e = 'f' then some '\x0c'
  else if e = 'n' then some '\n'
  else if e = 'r' then some '\r'
  else if e = 't' then some '\t'
  else if e = 'v' then some '\x0b'
  else if e = '\\' then some '\\'
  else if e = '\"' then some '\"'
  else if e = '\x27' then some '\x27'
  else none

/-- Decode the body of a Lua short string literal, fuel-indexed so that the
recursion is structural; one unit of fuel is spent per decoded character, so
any fuel of at least the body's length suffices. -/
def luaUnescapeF : Nat → List Char → Option (List Char)
  | _, [] => some []
  | 0, _ :: _ => none
  | fuel + 1, c :: rest =>
    if c = '\\' then
      match rest with
      | [] => none
      | e :: rest2 =>
        if isDecDigit e then
          match rest2 with
          | e2 :: rest3 =>
            if isDecDigit e2 then
              match rest3 with
              | e3 :: rest4 =>
                if isDecDigit e3 then
                  if digVal e * 100 + digVal e2 * 10 + digVal e3 ≤ 255 then
                    Option.map (fun t => Char.ofNat (digVal e * 100 + digVal e2 * 10 + digVal e3) :: t)
                      (luaUnescapeF fuel rest4)
                  else none
                else
                  Option.map (fun t => Char.ofNat (digVal e * 10 + digVal e2) :: t)
                    (luaUnescapeF fuel rest3)
              | [] => some [Char.ofNat (digVal e * 10 + digVal e2)]
            else
              Option.map (fun t => Char.ofNat (digVal e) :: t) (luaUnescapeF fuel rest2)
          | [] => some [Char.ofNat (digVal e)]
        else
          match luaEscCharMap e with
          | some d => Option.map (fun t => d :: t) (luaUnescapeF fuel rest2)
          | none => none
    else if c = '\"' || c = '\n' || c = '\r' then none
    else Option.map (fun t => c :: t) (luaUnescapeF fuel rest)

/-- Decode the body of a Lua short string literal (the text between the two
delimiting double quotes); `none` when the body is not well formed. -/
def luaUnescape (l : List Char) : Option (List Char) :=
  luaUnescapeF l.length l

/-- Decode a complete Lua short string literal: an opening double quote, a
well-formed body, and a closing double quote. -/
def luaDecode (lit : List Char) : Option (List Char) :=
  match lit with
  | [] => none
  | c :: rest =>
    if c = '\"' then
      match rest.getLast? with
      | some d => if d = '\"' then luaUnescape rest.dropLast else none
      | none => none
    else none

/-- `s` contains no NUL byte immediately followed by a decimal digit. -/
def noNulDigit : List Char → Bool
  | [] => true
  | [_] => true
  | a :: b :: rest => !(a == '\x00' && isDecDigit b) && noNulDigit (b :: rest)

/-- Scan a literal body the way the Lua lexer would: a backslash always
consumes the following character, and no unescaped double quote, newline or
carriage return may appear.  `true` means no raw special character occurs. -/
def bodyInjectionSafe : List Char → Bool
  | [] => true
  | c :: rest =>
    if c = '\\' then
      match rest with
      | [] => false
      | _ :: rest2 => bodyInjectionSafe rest2
    else
      !(c == '\"' || c == '\n' || c == '\r') && bodyInjectionSafe rest

/-! The execution outcome and the result normalizer (`ScriptOutput` and
`result_text`, src/aseprite.rs lines 18-46). -/

/-- Output from an Aseprite CLI or script execution. -/
structure ScriptOutput where
  stdout : List Char
  stderr : List Char
  success : Bool
deriving DecidableEq

/-- `ScriptOutput::result_text` from src/aseprite.rs, transcribed clause by
clause. -/
def result_text (o : ScriptOutput) : List Char :=
  if o.success then
    if (trim o.stdout).isEmpty then
      "Operation completed successfully.".toList
    else
      trim o.stdout
  else
    "Error: ".toList ++
      (if !(trim o.stderr).isEmpty then trim o.stderr
       else if !(trim o.stdout).isEmpty then trim o.stdout
       else "Unknown error occurred".toList)

/-- The result-normalizer contract as the specification words it: trimmed
stdout on success, a canned message when it is empty, and on failure trimmed
stderr, else trimmed stdout, else a canned unknown-error message, prefixed
with an error marker. -/
def resultTextSpec (o : ScriptOutput) : List Char :=
  if o.success = true then
    if trim o.stdout ≠ [] then trim o.stdout
    else "Operation completed successfully.".toList
  else if trim o.stderr ≠ [] then "Error: ".toList ++ trim o.stderr
  else if trim o.stdout ≠ [] then "Error: ".toList ++ trim o.stdout
  else "Error: Unknown error occurred".toList

/-! The process supervisor (`execute_with_timeout`, src/aseprite.rs lines
234-287).  The behaviour of the spawned child is environment data: when (in
seconds of wall-clock time) it would exit, with which status, and what its
output pipes would deliver once it has exited. -/

/-- Exit status of the child process (Rust `std::process::ExitStatus`):
either a normal exit with a code, or termination by a signal (in which case
`ExitStatus::success` is false and there is no code). -/
inductive ExitStatus where
  | exited (code : Int)
  | signaled (sig : Nat)
deriving DecidableEq

/-- Rust `ExitStatus::success`: a normal exit with status code 0. -/
def ExitStatus.success : ExitStatus → Bool
  | .exited code => code == 0
  | .signaled _ => false

/-- Result of racing `child.wait()` against the timeout clock. -/
inductive WaitOutcome where
  | completed (st : ExitStatus)
  | timedOut
deriving DecidableEq

/-- Environment-supplied behaviour of one spawned child process. -/
structure ChildBehavior where
  exitsAt : Option Nat
  exitStatus : ExitStatus
  waitFails : Bool
  stdoutData : List Char
  stderrData : List Char
deriving DecidableEq

/-- `PROCESS_TIMEOUT` from src/aseprite.rs line 9, in seconds. -/
def PROCESS_TIMEOUT : Nat := 60

/-- `tokio::time::timeout(limit, child.wait())`: the wait completes when the
child exits within the limit, otherwise the timeout elapses first. -/
def raceAgainstTimeout (limit : Nat) (c : ChildBehavior) : WaitOutcome :=
  match c.exitsAt with
  | some t => if t ≤ limit then WaitOutcome.completed c.exitStatus else WaitOutcome.timedOut
  | none => WaitOutcome.timedOut

/-- Errors `execute_with_timeout` can return: spawn failure, failure of the
completed `wait()` call, and the dedicated timeout error. -/
inductive ExecError where
  | spawnFailed
  | waitFailed
  | timedOut
deriving DecidableEq

/-- What one call of `execute_with_timeout` did: the value it returned,
whether it issued `child.kill()`, and whether it read the output pipes. -/
structure ExecEffects where
  result : Except ExecError ScriptOutput
  killIssued : Bool
  outputRead : Bool

/-- `execute_with_timeout` from src/aseprite.rs: spawn, race `wait()` against
the 60-second timeout, kill and bail with the timeout error if the clock wins,
and read the piped output only after a successful wait. -/
def execute_with_timeout (spawnOk : Bool) (c : ChildBehavior) : ExecEffects :=
  if spawnOk = false then
    ⟨Except.error ExecError.spawnFailed, false, false⟩
  else
    match raceAgainstTimeout PROCESS_TIMEOUT c with
    | WaitOutcome.timedOut => ⟨Except.error ExecError.timedOut, true, false⟩
    | WaitOutcome.completed st =>
      if c.waitFails then
        ⟨Except.error ExecError.waitFailed, false, false⟩
      else
        ⟨Except.ok ⟨c.stdoutData, c.stderrData, st.success⟩, false, true⟩

/-! The temporary script store (`temp_script_path`, src/aseprite.rs lines
143-155): the file name embeds a nanosecond timestamp and the value of a
wrapping atomic `u64` counter, rendered in decimal. -/

/-- The decimal digit character for `d` (0-9). -/
def digitChar (d : Nat) : Char := Char.ofNat (48 + d)

/-- Decimal rendering of a natural number, fuel-indexed so that the recursion
is structural; fuel `f` suffices whenever `n < 10 ^ f`. -/
def natCharsF : Nat → Nat → List Char
  | 0, _ => []
  | fuel + 1, n =>
    if n < 10 then [digitChar n]
    else natCharsF fuel (n / 10) ++ [digitChar (n % 10)]

/-- Decimal rendering of a natural number (Rust `format!` with `{}` on an
unsigned integer). -/
def natChars (n : Nat) : List Char := natCharsF (n + 1) n

/-- Read back a decimal digit string. -/
def readNat (l : List Char) : Nat :=
  l.foldl (fun acc c => acc * 10 + digVal c) 0

/-- `temp_script_path` from src/aseprite.rs: the temp directory joined with
the file name built from the timestamp and the counter value. -/
def temp_script_path (dir : List Char) (ts count : Nat) : List Char :=
  dir ++ '/' :: ("mcp_".toList ++ natChars ts ++ '_' :: (natChars count ++ ".lua".toList))

/-- Recover the timestamp and counter fields from a generated temp path with
known directory prefix (used to show the path determines them). -/
def parseTempPath (dir p : List Char) : Option (Nat × Nat) :=
  let rest := p.drop (dir.length + 5)
  let d1 := rest.takeWhile isDecDigit
  match rest.dropWhile isDecDigit with
  | c :: r2 =>
    if c = '_' then some (readNat d1, readNat (r2.takeWhile isDecDigit)) else none
  | [] => none

/-- Value returned by the i-th `fetch_add(1, Relaxed)` on the `u64` counter
(initially 0): the counter wraps modulo 2^64. -/
def counterAt (i : Nat) : Nat := i % 2 ^ 64

/-- Path returned by the i-th allocator call of a process whose i-th call
observes nanosecond timestamp `ts i`. -/
def allocatedPath (dir : List Char) (ts : Nat → Nat) (i : Nat) : List Char :=
  temp_script_path dir (ts i) (counterAt i)

/-! The script-running operations (`run_script`, `run_script_on_file` and
`run_cli`, src/aseprite.rs lines 157-232).  The filesystem is modelled as a
membership predicate on paths, threaded through explicitly. -/

/-- Errors a run operation can return: the temp-file write failed, or the
execution itself failed (spawn failure, wait failure or timeout). -/
inductive RunError where
  | writeFailed
  | exec (e : ExecError)
deriving DecidableEq

/-- Everything one run call did: the returned value, the filesystem when it
returned, and whether it attempted to remove its temp script file. -/
structure RunResult where
  result : Except RunError ScriptOutput
  fs : List Char → Bool
  removalAttempted : Bool

/-- `tokio::fs::write`: the path now exists. -/
def fsWrite (fs : List Char → Bool) (p : List Char) : List Char → Bool :=
  fun q => if q = p then true else fs q

/-- `tokio::fs::remove_file`: the path no longer exists. -/
def fsRemove (fs : List Char → Bool) (p : List Char) : List Char → Bool :=
  fun q => if q = p then false else fs q

/-- Environment data for one run call: the starting filesystem, the timestamp
and counter value the allocator observes, the runner's temp directory, which
filesystem operations fail, and whether the spawn succeeds plus the child's
behaviour. -/
structure FileWorld where
  fs0 : List Char → Bool
  ts : Nat
  count : Nat
  dir : List Char
  writeFails : Bool
  removeFails : Bool
  spawnOk : Bool
  child : ChildBehavior

/-- Map the supervisor's result into the run operation's result type. -/
def liftExec (r : Except ExecError ScriptOutput) : Except RunError ScriptOutput :=
  match r with
  | Except.error e => Except.error (RunError.exec e)
  | Except.ok o => Except.ok o

/-- `run_script` from src/aseprite.rs: allocate a temp path, write the script
(bailing out on write failure), execute with timeout, then remove the temp
file best-effort (a removal failure is logged and ignored) and return the
execution result. -/
def run_script (w : FileWorld) : RunResult :=
  if w.writeFails then
    ⟨Except.error RunError.writeFailed, w.fs0, false⟩
  else
    ⟨liftExec (execute_with_timeout w.spawnOk w.child).result,
      (if w.removeFails then
        fsWrite w.fs0 (temp_script_path w.dir w.ts w.count)
      else
        fsRemove (fsWrite w.fs0 (temp_script_path w.dir w.ts w.count))
          (temp_script_path w.dir w.ts w.count)),
      true⟩

/-- `run_script_on_file` from src/aseprite.rs: identical lifecycle to
`run_script`, with the target sprite file passed to the child as an extra
argument (which does not touch the temp-file lifecycle). -/
def run_script_on_file (_filePath : List Char) (w : FileWorld) : RunResult :=
  if w.writeFails then
    ⟨Except.error RunError.writeFailed, w.fs0, false⟩
  else
    ⟨liftExec (execute_with_timeout w.spawnOk w.child).result,
      (if w.removeFails then
        fsWrite w.fs0 (temp_script_path w.dir w.ts w.count)
      else
        fsRemove (fsWrite w.fs0 (temp_script_path w.dir w.ts w.count))
          (temp_script_path w.dir w.ts w.count)),
      true⟩

/-- `run_cli` from src/aseprite.rs: pass the raw argument list straight to the
executable under `execute_with_timeout`; no temp file is written or removed. -/
def run_cli (w : FileWorld) (_args : List (List Char)) : RunResult :=
  ⟨liftExec (execute_with_timeout w.spawnOk w.child).result, w.fs0, false⟩

/-! The executable locator (`find_aseprite`, src/aseprite.rs lines 61-141).
The three `cfg`-gated bodies are transcribed separately.  The environment
supplies the override variable, which paths exist, the outcome of the
which/where lookup command, and the home directory. -/

/-- Environment for one locator run. -/
structure LocateEnv where
  envVar : Option (List Char)
  pathExists : List Char → Bool
  whichOk : Bool
  whichStdout : List Char
  home : Option (List Char)

/-- First existing path of a candidate list. -/
def firstExisting (ex : List Char → Bool) : List (List Char) → Option (List Char)
  | [] => none
  | p :: rest => if ex p then some p else firstExisting ex rest

/-- The three well-known Windows install locations from the source. -/
def windowsCandidates : List (List Char) :=
  ["C:\\Program Files\\Aseprite\\Aseprite.exe".toList,
   "C:\\Program Files (x86)\\Steam\\steamapps\\common\\Aseprite\\Aseprite.exe".toList,
   "C:\\Program Files\\Steam\\steamapps\\common\\Aseprite\\Aseprite.exe".toList]

/-- Rust `str::lines().next()`: the text up to the first newline, with one
trailing carriage return stripped; `none` on empty input. -/
def firstLine (s : List Char) : Option (List Char) :=
  match s with
  | [] => none
  | _ :: _ =>
    let l := s.takeWhile (fun c => !(c == '\n'))
    some (if l.getLast? = some '\r' then l.dropLast else l)

/-- The Windows `where aseprite` step: on success, the first output line is
trimmed and validated to exist. -/
def whereResult (e : LocateEnv) : Option (List Char) :=
  if e.whichOk then
    match firstLine e.whichStdout with
    | some l => if e.pathExists (trim l) then some (trim l) else none
    | none => none
  else none

/-- The Linux `which aseprite` step: on success, the whole output is trimmed
and validated to exist. -/
def whichResult (e : LocateEnv) : Option (List Char) :=
  if e.whichOk then
    if e.pathExists (trim e.whichStdout) then some (trim e.whichStdout) else none
  else none

/-- The fixed Linux Steam install location, built from `HOME` (empty string
when unset, per `unwrap_or_default`). -/
def steamPath (e : LocateEnv) : List Char :=
  (match e.home with | some h => h | none => []) ++
    "/.steam/debian-installation/steamapps/common/Aseprite/aseprite".toList

/-- The fixed macOS install location from the source. -/
def macosAppPath : List Char :=
  "/Applications/Aseprite.app/Contents/MacOS/aseprite".toList

/-- The Windows search after the environment override: well-known paths, then
the `where` lookup. -/
def windowsSearchTail (e : LocateEnv) : Option (List Char) :=
  match firstExisting e.pathExists windowsCandidates with
  | some p => some p
  | none => whereResult e

/-- The Linux search after the environment override: the `which` lookup first,
then the fixed Steam path. -/
def linuxSearchTail (e : LocateEnv) : Option (List Char) :=
  match whichResult e with
  | some p => some p
  | none => if e.pathExists (steamPath e) then some (steamPath e) else none

/-- The macOS search after the environment override: only the fixed
application path. -/
def macosSearchTail (e : LocateEnv) : Option (List Char) :=
  if e.pathExists macosAppPath then some macosAppPath else none

/-- `find_aseprite` as compiled on Windows: env override if it exists on disk,
else the platform search; `none` models the final `bail!`. -/
def find_aseprite_windows (e : LocateEnv) : Option (List Char) :=
  match e.envVar with
  | some p => if e.pathExists p then some p else windowsSearchTail e
  | none => windowsSearchTail e

/-- `find_aseprite` as compiled on Linux. -/
def find_aseprite_linux (e : LocateEnv) : Option (List Char) :=
  match e.envVar with
  | some p => if e.pathExists p then some p else linuxSearchTail e
  | none => linuxSearchTail e

/-- `find_aseprite` as compiled on macOS. -/
def find_aseprite_macos (e : LocateEnv) : Option (List Char) :=
  match e.envVar with
  | some p => if e.pathExists p then some p else macosSearchTail e
  | none => macosSearchTail e

/-- First defined entry of a list of strategy results (the order the
specification claims the locator uses). -/
def firstSome : List (Option (List Char)) → Option (List Char)
  | [] => none
  | o :: rest =>
    match o with
    | some p => some p
    | none => firstSome rest

/-- The environment-override strategy on its own: the variable's path when it
is set and exists. -/
def envStrategy (e : LocateEnv) : Option (List Char) :=
  match e.envVar with
  | some p => if e.pathExists p then some p else none
  | none => none

/-- The Linux strategy order as the claim words it: environment override,
then the fixed well-known (Steam) install path, then the `which` lookup. -/
def claimedLinuxOrder (e : LocateEnv) : Option (List Char) :=
  firstSome [envStrategy e,
    if e.pathExists (steamPath e) then some (steamPath e) else none,
    whichResult e]

/-! Lemmas about the escaper (used by the claims on `lua_string`). -/

theorem replaceChar_append (pat : Char) (rep xs ys : List Char) :
    replaceChar pat rep (xs ++ ys) = replaceChar pat rep xs ++ replaceChar pat rep ys := by
  induction xs with
  | nil => rfl
  | cons c rest ih => simp [replaceChar, ih]

theorem luaEscapeBody_cons (c : Char) (s : List Char) :
    luaEscapeBody (c :: s) = escChar c ++ luaEscapeBody s := by
  by_cases h1 : c = '\\'
  · subst h1; simp [luaEscapeBody, replaceChar, replaceChar_append, escChar]
  · by_cases h2 : c = '\"'
    · subst h2; simp [luaEscapeBody, replaceChar, replaceChar_append, escChar]
    · by_cases h3 : c = '\n'
      · subst h3; simp [luaEscapeBody, replaceChar, replaceChar_append, escChar]
      · by_cases h4 : c = '\r'
        · subst h4; simp [luaEscapeBody, replaceChar, replaceChar_append, escChar]
        · by_cases h5 : c = '\x00'
          · subst h5; simp [luaEscapeBody, replaceChar, replaceChar_append, escChar]
          · simp [luaEscapeBody, replaceChar, replaceChar_append, escChar,
              h1, h2, h3, h4, h5]

theorem noNulDigit_tail {c : Char} {s : List Char} (h : noNulDigit (c :: s) = true) :
    noNulDigit s = true := by
  cases s with
  | nil => rfl
  | cons b rest =>
    simp [noNulDigit] at h
    simpa using h.2

theorem noNulDigit_nul {d : Char} {t : List Char}
    (h : noNulDigit ('\x00' :: d :: t) = true) : isDecDigit d = false := by
  simp [noNulDigit] at h
  simpa using h.1

theorem escChar_cons_head_not_digit (d : Char) (l : List Char)
    (hd : isDecDigit d = false) :
    ∃ e2 t2, escChar d ++ l = e2 :: t2 ∧ isDecDigit e2 = false := by
  by_cases h1 : d = '\\'
  · subst h1; exact ⟨'\\', '\\' :: l, rfl, by decide⟩
  · by_cases h2 : d = '\"'
    · subst h2; exact ⟨'\\', '\"' :: l, by simp [escChar], by decide⟩
    · by_cases h3 : d = '\n'
      · subst h3; exact ⟨'\\', 'n' :: l, by simp [escChar], by decide⟩
      · by_cases h4 : d = '\r'
        · subst h4; exact ⟨'\\', 'r' :: l, by simp [escChar], by decide⟩
        · by_cases h5 : d = '\x00'
          · subst h5; exact ⟨'\\', '0' :: l, by simp [escChar], by decide⟩
          · exact ⟨d, l, by simp [escChar, h1, h2, h3, h4, h5], hd⟩

theorem luaUnescapeF_escBody (s : List Char) : ∀ fuel : Nat,
    (luaEscapeBody s).length ≤ fuel → noNulDigit s = true →
    luaUnescapeF fuel (luaEscapeBody s) = some s := by
  induction s with
  | nil => intro fuel _ _; cases fuel <;> rfl
  | cons c rest ih =>
    intro fuel hlen hnd
    have hndr : noNulDigit rest = true := noNulDigit_tail hnd
    rw [luaEscapeBody_cons] at hlen ⊢
    by_cases h1 : c = '\\'
    · subst h1
      have hb : escChar '\\' = ['\\', '\\'] := by simp [escChar]
      rw [hb] at hlen ⊢
      obtain ⟨f, rfl⟩ : ∃ f, fuel = f + 1 := by
        cases fuel with
        | zero => simp at hlen
        | succ f => exact ⟨f, rfl⟩
      have hrec := ih f (by simp at hlen ⊢; omega) hndr
      simp [luaUnescapeF, isDecDigit, luaEscCharMap, hrec]
    · by_cases h2 : c = '\"'
      · subst h2
        have hb : escChar '\"' = ['\\', '\"'] := by simp [escChar]
        rw [hb] at hlen ⊢
        obtain ⟨f, rfl⟩ : ∃ f, fuel = f + 1 := by
          cases fuel with
          | zero => simp at hlen
          | succ f => exact ⟨f, rfl⟩
        have hrec := ih f (by simp at hlen ⊢; omega) hndr
        simp [luaUnescapeF, isDecDigit, luaEscCharMap, hrec]
      · by_cases h3 : c = '\n'
        · subst h3
          have hb : escChar '\n' = ['\\', 'n'] := by simp [escChar]
          rw [hb] at hlen ⊢
          obtain ⟨f, rfl⟩ : ∃ f, fuel = f + 1 := by
            cases fuel with
            | zero => simp at hlen
            | succ f => exact ⟨f, rfl⟩
          have hrec := ih f (by simp at hlen ⊢; omega) hndr
          simp [luaUnescapeF, isDecDigit, luaEscCharMap, hrec]
        · by_cases h4 : c = '\r'
          · subst h4
            have hb : escChar '\r' = ['\\', 'r'] := by simp [escChar]
            rw [hb] at hlen ⊢
            obtain ⟨f, rfl⟩ : ∃ f, fuel = f + 1 := by
              cases fuel with
              | zero => simp at hlen
              | succ f => exact ⟨f, rfl⟩
            have hrec := ih f (by simp at hlen ⊢; omega) hndr
            simp [luaUnescapeF, isDecDigit, luaEscCharMap, hrec]
          · by_cases h5 : c = '\x00'
            · subst h5
              have hb : escChar '\x00' = ['\\', '0'] := by simp [escChar]
              rw [hb] at hlen ⊢
              obtain ⟨f, rfl⟩ : ∃ f, fuel = f + 1 := by
                cases fuel with
                | zero => simp at hlen
                | succ f => exact ⟨f, rfl⟩
              have h0 : isDecDigit '0' = true := by decide
              have hch : Char.ofNat (digVal '0') = '\x00' := by decide
              cases rest with
              | nil =>
                show luaUnescapeF (f + 1) (['\\', '0'] ++ luaEscapeBody []) = _
                simp [luaEscapeBody, replaceChar, luaUnescapeF, h0, hch]
              | cons d t =>
                have hdd : isDecDigit d = false := noNulDigit_nul hnd
                obtain ⟨e2, t2, hbody, he2⟩ :=
                  escChar_cons_head_not_digit d (luaEscapeBody t) hdd
                have hrec := ih f (by simp at hlen ⊢; omega) hndr
                rw [luaEscapeBody_cons, hbody] at hrec ⊢
                simp [luaUnescapeF, h0, he2, hrec, hch]
            · have hb : escChar c = [c] := by simp [escChar, h1, h2, h3, h4, h5]
              rw [hb] at hlen ⊢
              obtain ⟨f, rfl⟩ : ∃ f, fuel = f + 1 := by
                cases fuel with
                | zero => simp at hlen
                | succ f => exact ⟨f, rfl⟩
              have hrec := ih f (by simp at hlen ⊢; omega) hndr
              simp [luaUnescapeF, h1, h2, h3, h4, hrec]

theorem bodyInjectionSafe_escChar (c : Char) (l : List Char) :
    bodyInjectionSafe (escChar c ++ l) = bodyInjectionSafe l := by
  by_cases h1 : c = '\\'
  · subst h1; simp [escChar, bodyInjectionSafe]
  · by_cases h2 : c = '\"'
    · subst h2; simp [escChar, bodyInjectionSafe]
    · by_cases h3 : c = '\n'
      · subst h3; simp [escChar, bodyInjectionSafe]
      · by_cases h4 : c = '\r'
        · subst h4; simp [escChar, bodyInjectionSafe]
        · by_cases h5 : c = '\x00'
          · subst h5; simp [escChar, bodyInjectionSafe]
          · have hb : escChar c = [c] := by simp [escChar, h1, h2, h3, h4, h5]
            rw [hb]
            show bodyInjectionSafe (c :: l) = bodyInjectionSafe l
            conv_lhs => unfold bodyInjectionSafe
            rw [if_neg h1]
            have hb2 : (c == '\"') = false := by simp [h2]
            have hb3 : (c == '\n') = false := by simp [h3]
            have hb4 : (c == '\r') = false := by simp [h4]
            rw [hb2, hb3, hb4]
            simp

theorem bodyInjectionSafe_escBody (s : List Char) :
    bodyInjectionSafe (luaEscapeBody s) = true := by
  induction s with
  | nil => rfl
  | cons c rest ih => rw [luaEscapeBody_cons, bodyInjectionSafe_escChar]; exact ih

/-! Lemmas about decimal rendering and the generated temp paths. -/

theorem isDecDigit_digitChar {k : Nat} (h : k < 10) :
    isDecDigit (digitChar k) = true := by
  interval_cases k <;> decide

theorem digVal_digitChar {k : Nat} (h : k < 10) : digVal (digitChar k) = k := by
  interval_cases k <;> decide

theorem natCharsF_foldl (fuel : Nat) : ∀ n, n < 10 ^ fuel → ∀ a : Nat,
    (natCharsF fuel n).foldl (fun acc c => acc * 10 + digVal c) a
      = a * 10 ^ (natCharsF fuel n).length + n := by
  induction fuel with
  | zero =>
    intro n hn a
    interval_cases n
    simp [natCharsF]
  | succ f ih =>
    intro n hn a
    by_cases h : n < 10
    · simp only [natCharsF, if_pos h]
      simp [List.foldl, digVal_digitChar h]
    · simp only [natCharsF, if_neg h]
      have hd : n / 10 < 10 ^ f := by
        rw [Nat.div_lt_iff_lt_mul (by norm_num : (0:Nat) < 10)]
        calc n < 10 ^ (f + 1) := hn
        _ = 10 ^ f * 10 := pow_succ 10 f
      rw [List.foldl_append]
      rw [ih (n / 10) hd a]
      have hm : n % 10 < 10 := Nat.mod_lt n (by norm_num)
      simp [List.foldl, digVal_digitChar hm, List.length_append]
      have hdm : 10 * (n / 10) + n % 10 = n := Nat.div_add_mod n 10
      calc (a * 10 ^ (natCharsF f (n / 10)).length + n / 10) * 10 + n % 10
          = a * (10 ^ (natCharsF f (n / 10)).length * 10) +
              (10 * (n / 10) + n % 10) := by ring
      _ = a * 10 ^ ((natCharsF f (n / 10)).length + 1) + n := by
            rw [hdm, pow_succ]

theorem readNat_natChars (n : Nat) : readNat (natChars n) = n := by
  have hb : n < 10 ^ (n + 1) := by
    calc n < 10 ^ n := Nat.lt_pow_self (by norm_num) n
    _ ≤ 10 ^ (n + 1) := Nat.pow_le_pow_right (by norm_num) (by omega)
  have hf := natCharsF_foldl (n + 1) n hb 0
  unfold readNat natChars
  rw [hf]
  simp

theorem natCharsF_digits (fuel : Nat) : ∀ n, ∀ c ∈ natCharsF fuel n,
    isDecDigit c = true := by
  induction fuel with
  | zero => intro n c hc; simp [natCharsF] at hc
  | succ f ih =>
    intro n c hc
    by_cases h : n < 10
    · simp only [natCharsF, if_pos h] at hc
      simp at hc
      subst hc
      exact isDecDigit_digitChar h
    · simp only [natCharsF, if_neg h] at hc
      rw [List.mem_append] at hc
      cases hc with
      | inl hl => exact ih (n / 10) c hl
      | inr hr =>
        simp at hr
        subst hr
        exact isDecDigit_digitChar (Nat.mod_lt n (by norm_num))

theorem natChars_digits (n : Nat) : ∀ c ∈ natChars n, isDecDigit c = true :=
  natCharsF_digits (n + 1) n

theorem takeWhile_append_stop (p : Char → Bool) (xs : List Char) (y : Char)
    (ys : List Char) (hxs : ∀ c ∈ xs, p c = true) (hy : p y = false) :
    (xs ++ y :: ys).takeWhile p = xs ∧ (xs ++ y :: ys).dropWhile p = y :: ys := by
  induction xs with
  | nil => simp [List.takeWhile_cons, List.dropWhile_cons, hy]
  | cons x xt ih =>
    have hx : p x = true := hxs x (by simp)
    have iht := ih (fun c hc => hxs c (by simp [hc]))
    simp [List.takeWhile_cons, List.dropWhile_cons, hx, iht.1, iht.2]

theorem drop_append_length (xs : List Char) (k : Nat) : ∀ ys : List Char,
    (xs ++ ys).drop (xs.length + k) = ys.drop k := by
  induction xs with
  | nil => intro ys; simp
  | cons x xt ih =>
    intro ys
    rw [List.cons_append, List.length_cons, Nat.succ_add, List.drop_succ_cons]
    exact ih ys

theorem parseTempPath_roundtrip (dir : List Char) (a b : Nat) :
    parseTempPath dir (temp_script_path dir a b) = some (a, b) := by
  have hm : "mcp_".toList = ['m', 'c', 'p', '_'] := by decide
  have hl : ".lua".toList = ['.', 'l', 'u', 'a'] := by decide
  unfold parseTempPath temp_script_path
  rw [hm, hl]
  have hdrop :
      (dir ++ '/' :: (['m', 'c', 'p', '_'] ++
          (natChars a ++ '_' :: (natChars b ++ ['.', 'l', 'u', 'a'])))).drop
        (dir.length + 5)
        = natChars a ++ '_' :: (natChars b ++ ['.', 'l', 'u', 'a']) := by
    rw [drop_append_length]
    simp [List.drop]
  have h1 := takeWhile_append_stop isDecDigit (natChars a) '_'
    (natChars b ++ ['.', 'l', 'u', 'a']) (natChars_digits a) (by decide)
  have h2 := takeWhile_append_stop isDecDigit (natChars b) '.'
    ['l', 'u', 'a'] (natChars_digits b) (by decide)
  dsimp only
  simp only [List.append_assoc]
  rw [hdrop, h1.1, h1.2]
  dsimp only
  rw [if_pos rfl, h2.1, readNat_natChars, readNat_natChars]

theorem temp_script_path_inj (dir : List Char) (a b c d : Nat)
    (h : temp_script_path dir a b = temp_script_path dir c d) : a = c ∧ b = d := by
  have h1 := parseTempPath_roundtrip dir a b
  have h2 := parseTempPath_roundtrip dir c d
  rw [h] at h1
  rw [h1] at h2
  have := Prod.mk.injEq a b c d ▸ Option.some.inj h2
  exact ⟨this.1, this.2⟩

/-! Lemmas about the process supervisor and the locator. -/

theorem race_completed_status {limit : Nat} {c : ChildBehavior} {st : ExitStatus}
    (h : raceAgainstTimeout limit c = WaitOutcome.completed st) :
    st = c.exitStatus := by
  unfold raceAgainstTimeout at h
  cases hc : c.exitsAt with
  | none => rw [hc] at h; simp at h
  | some t =>
    rw [hc] at h
    dsimp only at h
    by_cases ht : t ≤ limit
    · rw [if_pos ht] at h
      exact (WaitOutcome.completed.inj h).symm
    · rw [if_neg ht] at h
      simp at h

theorem firstSome_singleton (x : Option (List Char)) : firstSome [x] = x := by
  cases x <;> rfl

theorem firstSome2_none_iff (x y : Option (List Char)) :
    firstSome [x, y] = none ↔ x = none ∧ y = none := by
  cases x <;> cases y <;> simp [firstSome]

theorem firstSome3_none_iff (x y z : Option (List Char)) :
    firstSome [x, y, z] = none ↔ x = none ∧ y = none ∧ z = none := by
  cases x <;> cases y <;> cases z <;> simp [firstSome]

theorem find_linux_eq_firstSome (e : LocateEnv) :
    find_aseprite_linux e = firstSome [envStrategy e, whichResult e,
      if e.pathExists (steamPath e) then some (steamPath e) else none] := by
  have ht : linuxSearchTail e = firstSome [whichResult e,
      if e.pathExists (steamPath e) then some (steamPath e) else none] := by
    cases hw : whichResult e with
    | some p => simp [linuxSearchTail, firstSome, hw]
    | none =>
      by_cases hs : e.pathExists (steamPath e) <;>
        simp [linuxSearchTail, firstSome, hw, hs]
  cases henv : e.envVar with
  | none => simp [find_aseprite_linux, envStrategy, henv, firstSome, ht]
  | some p =>
    by_cases hp : e.pathExists p
    · simp [find_aseprite_linux, envStrategy, henv, hp, firstSome]
    · simp [find_aseprite_linux, envStrategy, henv, hp, firstSome, ht]

theorem find_windows_eq_firstSome (e : LocateEnv) :
    find_aseprite_windows e = firstSome [envStrategy e,
      firstExisting e.pathExists windowsCandidates, whereResult e] := by
  have ht : windowsSearchTail e = firstSome [firstExisting e.pathExists windowsCandidates,
      whereResult e] := by
    cases hf : firstExisting e.pathExists windowsCandidates with
    | some p => simp [windowsSearchTail, firstSome, hf]
    | none =>
      cases hwr : whereResult e <;> simp [windowsSearchTail, firstSome, hf, hwr]
  cases henv : e.envVar with
  | none => simp [find_aseprite_windows, envStrategy, henv, firstSome, ht]
  | some p =>
    by_cases hp : e.pathExists p
    · simp [find_aseprite_windows, envStrategy, henv, hp, firstSome]
    · simp [find_aseprite_windows, envStrategy, henv, hp, firstSome, ht]

theorem find_macos_eq_firstSome (e : LocateEnv) :
    find_aseprite_macos e = firstSome [envStrategy e, macosSearchTail e] := by
  cases henv : e.envVar with
  | none =>
    by_cases hs : e.pathExists macosAppPath <;>
      simp [find_aseprite_macos, macosSearchTail, envStrategy, henv, firstSome, hs]
  | some p =>
    by_cases hp : e.pathExists p
    · simp [find_aseprite_macos, envStrategy, henv, hp, firstSome]
    · by_cases hs : e.pathExists macosAppPath <;>
        simp [find_aseprite_macos, macosSearchTail, envStrategy, henv, hp, firstSome, hs]

/-! The claims. -/

/-- C1, counterexample: for the input NUL-then-digit-one, the escaper emits
the literal with body backslash-zero-one, which Lua's decimal escape (up to
three digits) decodes as the single byte 1, not as NUL followed by the
character 1 — so the round-trip claim fails as stated. -/
theorem C1_lua_roundtrip_counterexample :
    luaDecode (lua_string ['\x00', '1']) = some ['\x01'] ∧
      luaDecode (lua_string ['\x00', '1']) ≠ some ['\x00', '1'] :=
  ⟨by decide, by decide⟩

/-- C1, amended: for every string in which no NUL byte is immediately
followed by a decimal digit, decoding the literal produced by `lua_string`
through Lua's string-literal grammar yields exactly the original string. -/
theorem C1_lua_roundtrip_amended (s : List Char) (h : noNulDigit s = true) :
    luaDecode (lua_string s) = some s := by
  have h1 : (luaEscapeBody s ++ ['\"']).getLast? = some '\"' :=
    List.getLast?_concat _
  have h2 : (luaEscapeBody s ++ ['\"']).dropLast = luaEscapeBody s :=
    List.dropLast_concat
  simp [luaDecode, lua_string, h1, h2, luaUnescape]
  exact luaUnescapeF_escBody s _ le_rfl h

/-- C1, witness: the amended round-trip evaluated on a concrete string
containing a backslash, a quote, a newline and a trailing NUL. -/
theorem C1_lua_roundtrip_amended_witness :
    noNulDigit ['a', '\n', '\"', '\\', '\x00'] = true ∧
      luaDecode (lua_string ['a', '\n', '\"', '\\', '\x00']) =
        some ['a', '\n', '\"', '\\', '\x00'] :=
  ⟨by decide, C1_lua_roundtrip_amended ['a', '\n', '\"', '\\', '\x00'] (by decide)⟩

/-- C2: when the race of `wait()` against the fixed 60-second timeout ends in
timeout, `execute_with_timeout` kills the child, returns the dedicated timeout
error (distinct from spawn and wait failures) and reads no output; output is
read only when the wait completed in time (and did not itself fail). -/
theorem C2_timeout_kill_no_output (c : ChildBehavior) :
    PROCESS_TIMEOUT = 60 ∧
    (raceAgainstTimeout PROCESS_TIMEOUT c = WaitOutcome.timedOut →
      execute_with_timeout true c =
        ⟨Except.error ExecError.timedOut, true, false⟩) ∧
    ((execute_with_timeout true c).outputRead = true →
      raceAgainstTimeout PROCESS_TIMEOUT c = WaitOutcome.completed c.exitStatus ∧
        c.waitFails = false) ∧
    ExecError.timedOut ≠ ExecError.spawnFailed ∧
    ExecError.timedOut ≠ ExecError.waitFailed := by
  refine ⟨rfl, ?_, ?_, by decide, by decide⟩
  · intro h
    simp [execute_with_timeout, h]
  · intro h
    unfold execute_with_timeout at h
    rw [if_neg (by decide : ¬ (true = false))] at h
    cases hr : raceAgainstTimeout PROCESS_TIMEOUT c with
    | timedOut => rw [hr] at h; simp at h
    | completed st =>
      rw [hr] at h
      dsimp only at h
      by_cases hwf : c.waitFails = true
      · rw [if_pos hwf] at h; simp at h
      · refine ⟨?_, by simpa using hwf⟩
        have hst := race_completed_status hr
        rw [hst]

/-- C2, witness: a child that never exits is killed and reported with the
timeout error, its pending output discarded. -/
theorem C2_timeout_kill_no_output_witness :
    execute_with_timeout true ⟨none, ExitStatus.exited 0, false, ['x'], ['y']⟩ =
      ⟨Except.error ExecError.timedOut, true, false⟩ :=
  (C2_timeout_kill_no_output ⟨none, ExitStatus.exited 0, false, ['x'], ['y']⟩).2.1 rfl

/-- C3: when the temp-file write succeeds, `run_script` and
`run_script_on_file` always attempt removal of the temp script before
returning (whatever the execution outcome), the file is gone whenever removal
itself succeeds, and a removal failure never changes the returned result. -/
theorem C3_temp_file_cleanup (w : FileWorld) (fp : List Char)
    (hw : w.writeFails = false) :
    ((run_script w).removalAttempted = true ∧
      (w.removeFails = false →
        (run_script w).fs (temp_script_path w.dir w.ts w.count) = false) ∧
      (∀ b : Bool,
        (run_script { w with removeFails := b }).result = (run_script w).result)) ∧
    ((run_script_on_file fp w).removalAttempted = true ∧
      (w.removeFails = false →
        (run_script_on_file fp w).fs (temp_script_path w.dir w.ts w.count) = false) ∧
      (∀ b : Bool,
        (run_script_on_file fp { w with removeFails := b }).result =
          (run_script_on_file fp w).result)) := by
  constructor
  · refine ⟨?_, ?_, ?_⟩
    · simp [run_script, hw]
    · intro hr; simp [run_script, hw, hr, fsRemove]
    · intro b; simp [run_script, hw]
  · refine ⟨?_, ?_, ?_⟩
    · simp [run_script_on_file, hw]
    · intro hr; simp [run_script_on_file, hw, hr, fsRemove]
    · intro b; simp [run_script_on_file, hw]

/-- C3, witness: a concrete successful run attempts removal and leaves no
temp file behind. -/
theorem C3_temp_file_cleanup_witness :
    (run_script ⟨fun _ => false, 1, 2, [], false, false, true,
        ⟨some 1, ExitStatus.exited 0, false, [], []⟩⟩).removalAttempted = true ∧
    (run_script ⟨fun _ => false, 1, 2, [], false, false, true,
        ⟨some 1, ExitStatus.exited 0, false, [], []⟩⟩).fs
      (temp_script_path [] 1 2) = false :=
  ⟨(C3_temp_file_cleanup ⟨fun _ => false, 1, 2, [], false, false, true,
      ⟨some 1, ExitStatus.exited 0, false, [], []⟩⟩ ['f'] rfl).1.1,
   (C3_temp_file_cleanup ⟨fun _ => false, 1, 2, [], false, false, true,
      ⟨some 1, ExitStatus.exited 0, false, [], []⟩⟩ ['f'] rfl).1.2.1 rfl⟩

/-- C4: `result_text` realizes exactly the specified normalization: trimmed
stdout on success, the canned success message when it trims to empty, and on
failure the error marker followed by trimmed stderr, else trimmed stdout,
else the canned unknown-error message (so both empty yields exactly
the string Error: Unknown error occurred). -/
theorem C4_result_text_normalization (o : ScriptOutput) :
    result_text o = resultTextSpec o := by
  have hcat : "Error: ".toList ++ "Unknown error occurred".toList =
      "Error: Unknown error occurred".toList := by decide
  unfold result_text resultTextSpec
  by_cases hs : o.success = true
  · simp [hs]
  · simp only [hs, if_neg hs, Bool.false_eq_true, if_false]
    by_cases h1 : trim o.stderr = []
    · by_cases h2 : trim o.stdout = []
      · simp [h1, h2, hcat]
      · simp [h1, h2]
    · simp [h1]

/-- C5, counterexample: in an environment where the override is unset, every
path exists and the which lookup answers a path different from the Steam
location, the Linux locator returns the which result, while the claimed order
(override, well-known install paths, which/where lookup) would return the
Steam path — on Linux the code consults `which` before the fixed path. -/
theorem C5_locator_order_counterexample :
    find_aseprite_linux
        ⟨none, fun _ => true, true, "/usr/bin/aseprite".toList,
          some "/home/u".toList⟩ =
      some "/usr/bin/aseprite".toList ∧
    claimedLinuxOrder
        ⟨none, fun _ => true, true, "/usr/bin/aseprite".toList,
          some "/home/u".toList⟩ =
      some "/home/u/.steam/debian-installation/steamapps/common/Aseprite/aseprite".toList ∧
    find_aseprite_linux
        ⟨none, fun _ => true, true, "/usr/bin/aseprite".toList,
          some "/home/u".toList⟩ ≠
      claimedLinuxOrder
        ⟨none, fun _ => true, true, "/usr/bin/aseprite".toList,
          some "/home/u".toList⟩ :=
  ⟨by decide, by decide, by decide⟩

/-- C5, amended: the locator is the first-match search over, on Windows: the
override, the fixed candidate list, then the where lookup; on Linux: the
override, then the which lookup, then the fixed Steam path; on macOS: the
override then the fixed application path (no lookup command); and on each
platform it fails exactly when all of its strategies produce nothing. -/
theorem C5_locator_order_amended (e : LocateEnv) :
    (find_aseprite_linux e = firstSome [envStrategy e, whichResult e,
        if e.pathExists (steamPath e) then some (steamPath e) else none]) ∧
    (find_aseprite_windows e = firstSome [envStrategy e,
        firstExisting e.pathExists windowsCandidates, whereResult e]) ∧
    (find_aseprite_macos e = firstSome [envStrategy e, macosSearchTail e]) ∧
    (find_aseprite_linux e = none ↔ envStrategy e = none ∧ whichResult e = none ∧
        e.pathExists (steamPath e) = false) ∧
    (find_aseprite_windows e = none ↔ envStrategy e = none ∧
        firstExisting e.pathExists windowsCandidates = none ∧ whereResult e = none) ∧
    (find_aseprite_macos e = none ↔ envStrategy e = none ∧
        macosSearchTail e = none) := by
  refine ⟨find_linux_eq_firstSome e, find_windows_eq_firstSome e,
    find_macos_eq_firstSome e, ?_, ?_, ?_⟩
  · rw [find_linux_eq_firstSome e, firstSome3_none_iff]
    by_cases hs : e.pathExists (steamPath e) <;> simp [hs]
  · rw [find_windows_eq_firstSome e, firstSome3_none_iff]
  · rw [find_macos_eq_firstSome e, firstSome2_none_iff]

/-- C6: whenever `execute_with_timeout` returns an execution outcome (the
completed path), its success flag is true exactly when the child exited with
status code 0. -/
theorem C6_success_iff_exit_zero (c : ChildBehavior) (o : ScriptOutput)
    (h : (execute_with_timeout true c).result = Except.ok o) :
    (o.success = true ↔ c.exitStatus = ExitStatus.exited 0) := by
  unfold execute_with_timeout at h
  rw [if_neg (by decide : ¬ (true = false))] at h
  cases hr : raceAgainstTimeout PROCESS_TIMEOUT c with
  | timedOut => rw [hr] at h; simp at h
  | completed st =>
    rw [hr] at h
    dsimp only at h
    by_cases hwf : c.waitFails = true
    · rw [if_pos hwf] at h; simp at h
    · rw [if_neg hwf] at h
      simp at h
      have hst := race_completed_status hr
      subst hst
      rw [← h]
      cases hcs : c.exitStatus with
      | exited code => simp [ExitStatus.success]
      | signaled sg => simp [ExitStatus.success]

/-- C6, witness: a child exiting with code 0 within the window yields a
successful outcome. -/
theorem C6_success_iff_exit_zero_witness :
    ((⟨[], [], true⟩ : ScriptOutput).success = true ↔
      (⟨some 1, ExitStatus.exited 0, false, [], []⟩ : ChildBehavior).exitStatus =
        ExitStatus.exited 0) :=
  C6_success_iff_exit_zero ⟨some 1, ExitStatus.exited 0, false, [], []⟩
    ⟨[], [], true⟩ rfl

/-- C7, counterexample: the counter is a wrapping 64-bit atomic, so the call
with index 2^64 observes the same counter value as call 0; with equal
timestamps the two allocated paths coincide, refuting distinctness for
arbitrarily many calls. -/
theorem C7_temp_path_unique_counterexample :
    allocatedPath [] (fun _ => 5) 0 = allocatedPath [] (fun _ => 5) (2 ^ 64) ∧
      (0 : Nat) ≠ 2 ^ 64 := by
  constructor
  · unfold allocatedPath counterAt
    norm_num
  · norm_num

/-- C7, amended: any N at most 2^64 allocator calls (arbitrary per-call
timestamps, so in particular all equal) return pairwise distinct paths,
because the counter values are distinct and the path determines the
(timestamp, counter) pair injectively. -/
theorem C7_temp_path_unique_amended (dir : List Char) (ts : Nat → Nat)
    (N i j : Nat) (hN : N ≤ 2 ^ 64) (hi : i < N) (hj : j < N) (hij : i ≠ j) :
    allocatedPath dir ts i ≠ allocatedPath dir ts j := by
  intro h
  unfold allocatedPath at h
  have hinj := temp_script_path_inj dir (ts i) (counterAt i) (ts j) (counterAt j) h
  have hci : counterAt i = i := by
    unfold counterAt; exact Nat.mod_eq_of_lt (lt_of_lt_of_le hi hN)
  have hcj : counterAt j = j := by
    unfold counterAt; exact Nat.mod_eq_of_lt (lt_of_lt_of_le hj hN)
  exact hij (by rw [← hci, ← hcj]; exact hinj.2)

/-- C7, witness: two successive same-timestamp calls give distinct paths. -/
theorem C7_temp_path_unique_amended_witness :
    allocatedPath [] (fun _ => 7) 0 ≠ allocatedPath [] (fun _ => 7) 1 :=
  C7_temp_path_unique_amended [] (fun _ => 7) 2 0 1 (by norm_num) (by norm_num)
    (by norm_num) (by norm_num)

/-- C8: a set override variable whose path does not exist makes each platform
locator fall through to its search tail, behaving exactly as if the variable
were unset; failure still only arises from overall exhaustion. -/
theorem C8_env_override_fallthrough (e : LocateEnv) (p : List Char)
    (hset : e.envVar = some p) (hne : e.pathExists p = false) :
    find_aseprite_linux e = linuxSearchTail e ∧
    find_aseprite_windows e = windowsSearchTail e ∧
    find_aseprite_macos e = macosSearchTail e ∧
    find_aseprite_linux e = find_aseprite_linux { e with envVar := none } ∧
    find_aseprite_windows e = find_aseprite_windows { e with envVar := none } ∧
    find_aseprite_macos e = find_aseprite_macos { e with envVar := none } := by
  have h1 : find_aseprite_linux e = linuxSearchTail e := by
    simp [find_aseprite_linux, hset, hne]
  have h2 : find_aseprite_windows e = windowsSearchTail e := by
    simp [find_aseprite_windows, hset, hne]
  have h3 : find_aseprite_macos e = macosSearchTail e := by
    simp [find_aseprite_macos, hset, hne]
  refine ⟨h1, h2, h3, ?_, ?_, ?_⟩
  · rw [h1]; rfl
  · rw [h2]; rfl
  · rw [h3]; rfl

/-- C8, witness: with the override set to a nonexistent path and every
strategy failing, the locator performs the platform search (and fails only
there). -/
theorem C8_env_override_fallthrough_witness :
    find_aseprite_linux ⟨some ['x'], fun _ => false, false, [], none⟩ =
      linuxSearchTail ⟨some ['x'], fun _ => false, false, [], none⟩ :=
  (C8_env_override_fallthrough ⟨some ['x'], fun _ => false, false, [], none⟩
    ['x'] rfl rfl).1

/-- C9: `lua_string` always yields an opening double quote, the escaped body,
and a closing double quote, and the body contains no unescaped double quote,
newline or carriage return (every special character is consumed by a
preceding backslash), so the input can never terminate the literal early. -/
theorem C9_lua_string_injection_safe (s : List Char) :
    (lua_string s).head? = some '\"' ∧
    (lua_string s).getLast? = some '\"' ∧
    lua_string s = '\"' :: (luaEscapeBody s ++ ['\"']) ∧
    bodyInjectionSafe (luaEscapeBody s) = true := by
  refine ⟨rfl, ?_, rfl, bodyInjectionSafe_escBody s⟩
  show ('\"' :: (luaEscapeBody s ++ ['\"'])).getLast? = some '\"'
  rw [show ('\"' :: (luaEscapeBody s ++ ['\"'])) =
      ('\"' :: luaEscapeBody s) ++ ['\"'] by simp]
  exact List.getLast?_concat _

/-- C10: `run_cli` leaves the filesystem exactly as it found it and never
attempts a temp-file removal — the temp-file lifecycle belongs only to the
script-based operations. -/
theorem C10_run_cli_frame (w : FileWorld) (args : List (List Char)) :
    (run_cli w args).fs = w.fs0 ∧ (run_cli w args).removalAttempted = false :=
  ⟨rfl, rfl⟩

end AsepriteMcp
